import Mathlib

/-!
Shallow embedding of the restor-octo-giggle JavaScript driver
(event-consumption subsystem) and proofs about its specification.

The embedding covers, faithfully to the JavaScript source:
  - src/message.js      : EventMessage.fromJSON, EventMessage.fromSimpleFormat,
                          EventMessage.create (JSON.parse / JSON.stringify are
                          modelled by an executable JSON parser and renderer
                          below, including the JavaScript falsiness defaults
                          used by fromJSON);
  - src/event-listener.js : the line splitting and dispatch of handleMessage,
                          the reconnect bookkeeping of handleReconnect, and a
                          small event-trace semantics of the socket callbacks
                          installed by start, together with stop;
  - src/registration-client.js : the data-event handler of register, as a
                          chunk-processing state machine.

JavaScript strings are modelled as Lean strings (operated on through their
character lists), JavaScript numbers that the claims exercise are integers
or rationals, and JavaScript runtime values produced by JSON.parse are the
inductive type Json below.
-/

namespace Driver

/-! ## JavaScript string primitives -/

/-- Whitespace recognised by the JavaScript String.prototype.trim:
space, tab, line feed, carriage return, vertical tab, form feed,
no-break space, BOM, and the Unicode line separators. -/
def jsWhitespace (c : Char) : Bool :=
  c = ' ' || c = '\t' || c = '\n' || c = '\r' ||
  c = Char.ofNat 11 || c = Char.ofNat 12 || c = Char.ofNat 160 ||
  c = Char.ofNat 0x2028 || c = Char.ofNat 0x2029 || c = Char.ofNat 0xFEFF

/-- Drop leading and trailing JavaScript whitespace from a character list. -/
def jsTrimList (cs : List Char) : List Char :=
  ((cs.dropWhile jsWhitespace).reverse.dropWhile jsWhitespace).reverse

/-- Model of the JavaScript s.trim(). -/
def jsTrim (s : String) : String :=
  String.mk (jsTrimList s.data)

/-- Auxiliary for the JavaScript s.split(sep) with a one-character
separator: returns the first separated segment and the remaining
segments. -/
def splitAux (sep : Char) : List Char → List Char × List (List Char)
  | [] => ([], [])
  | c :: rest =>
    let r := splitAux sep rest
    if c = sep then ([], r.1 :: r.2) else (c :: r.1, r.2)

/-- Model of the JavaScript s.split(sep) for a one-character separator:
always returns at least one segment. -/
def splitOnChar (sep : Char) (cs : List Char) : List (List Char) :=
  (splitAux sep cs).1 :: (splitAux sep cs).2

/-- Model of the JavaScript parts.join(sep) for a one-character separator. -/
def joinChar (sep : Char) : List (List Char) → List Char
  | [] => []
  | [x] => x
  | x :: y :: t => x ++ sep :: joinChar sep (y :: t)

/-- Pattern list occurs as a contiguous sublist of the haystack list. -/
def listContains (hay pat : List Char) : Bool :=
  (List.range (hay.length + 1)).any fun i => List.isPrefixOf pat (hay.drop i)

/-- Model of the JavaScript s.includes(pat) (substring containment). -/
def containsSub (s pat : String) : Bool :=
  listContains s.data pat.data

/-- Model of the JavaScript s.startsWith(pat). -/
def startsWithStr (s pat : String) : Bool :=
  List.isPrefixOf pat.data s.data

/-- Model of the JavaScript s.substring(n) (drop the first n characters). -/
def substringFrom (s : String) (n : Nat) : String :=
  String.mk (s.data.drop n)

/-! ## JSON values

JavaScript values produced by JSON.parse. Numbers are modelled as
rationals (the integer literals exercised by the driver are exact in
either representation). -/

inductive Json where
  | null : Json
  | bool : Bool → Json
  | num : Rat → Json
  | str : String → Json
  | arr : List Json → Json
  | obj : List (String × Json) → Json

/-- JavaScript truthiness of a defined value: null, false, 0 and the
empty string are falsy; arrays and objects are always truthy. -/
def jsTruthy : Json → Bool
  | .null => false
  | .bool b => b
  | .num q => q != 0
  | .str s => s != ""
  | .arr _ => true
  | .obj _ => true

/-- JavaScript x || d for a possibly-undefined x (undefined is none):
the value itself when truthy, the default otherwise. -/
def jsOr (x : Option Json) (d : Json) : Json :=
  match x with
  | some j => if jsTruthy j then j else d
  | none => d

/-- Property lookup on the fields of a parsed JSON object: with
duplicate keys the last occurrence wins, as in JSON.parse. -/
def jsGetField (fields : List (String × Json)) (k : String) : Option Json :=
  (fields.reverse.find? (fun p => p.1 == k)).map (fun p => p.2)

/-- JavaScript property access v.k for the values JSON.parse can
return, null excluded (accessing a property of null throws, which the
caller models separately). Properties of non-object primitives and of
arrays are undefined here. -/
def jsMember (v : Json) (k : String) : Option Json :=
  match v with
  | .obj fields => jsGetField fields k
  | _ => none

/-! ## JSON text: the escaping performed by JSON.stringify -/

/-- Lowercase hexadecimal digit for a value below 16. -/
def hexDigitChar (n : Nat) : Char :=
  if n < 10 then Char.ofNat (48 + n) else Char.ofNat (87 + n)

/-- Value of a hexadecimal digit character, if any. -/
def hexVal (c : Char) : Option Nat :=
  if '0' ≤ c ∧ c ≤ '9' then some (c.toNat - 48)
  else if 'a' ≤ c ∧ c ≤ 'f' then some (c.toNat - 87)
  else if 'A' ≤ c ∧ c ≤ 'F' then some (c.toNat - 55)
  else none

/-- String escaping of JSON.stringify: quote and backslash get a
backslash escape, the named control characters get their short escapes,
the remaining control characters get a u-escape, everything else is
emitted verbatim. -/
def escapeChar (c : Char) : List Char :=
  if c = '"' then ['\\', '"']
  else if c = '\\' then ['\\', '\\']
  else if c = '\n' then ['\\', 'n']
  else if c = '\t' then ['\\', 't']
  else if c = '\r' then ['\\', 'r']
  else if c = Char.ofNat 8 then ['\\', 'b']
  else if c = Char.ofNat 12 then ['\\', 'f']
  else if c.toNat < 32 then
    ['\\', 'u', '0', '0', hexDigitChar (c.toNat / 16), hexDigitChar (c.toNat % 16)]
  else [c]

/-- Escape every character of a string body. -/
def escapeList (cs : List Char) : List Char :=
  cs.flatMap escapeChar

/-- A JSON string token: opening quote, escaped body, closing quote. -/
def quoteList (cs : List Char) : List Char :=
  '"' :: (escapeList cs ++ ['"'])

/-- Character text of JSON.stringify on the object with the two fields
msg and event_name (in that insertion order), both holding strings:
exactly the wire form produced by EventMessage.create. -/
def stringifyPairData (msg eventName : String) : List Char :=
  Char.ofNat 123 ::
    (quoteList "msg".data ++ ':' :: quoteList msg.data ++
     ',' :: quoteList "event_name".data ++ ':' :: quoteList eventName.data ++
     [Char.ofNat 125])

/-! ## JSON text: an executable model of JSON.parse

A recursive-descent parser over character lists. Structural recursion
is by fuel for the nested value grammar; every inter-function call
decreases the fuel by one, and the fuel supplied by jsonParse is large
enough for any input (each unit of nesting or list structure consumes
input characters). -/

/-- JSON insignificant whitespace. -/
def jsonWs (c : Char) : Bool :=
  c = ' ' || c = '\t' || c = '\n' || c = '\r'

/-- Skip insignificant whitespace. -/
def skipWs (cs : List Char) : List Char :=
  cs.dropWhile jsonWs

/-- Parse the body of a JSON string after the opening quote, up to and
including the closing quote: returns the decoded characters and the
rest of the input. Raw control characters are a syntax error; escapes
cover the named short escapes and u-escapes. -/
def parseStringBody : List Char → Option (List Char × List Char)
  | [] => none
  | c :: rest =>
    if c = '"' then some ([], rest)
    else if c = '\\' then
      match rest with
      | [] => none
      | e :: rest2 =>
        if e = '"' then (parseStringBody rest2).map (fun p => ('"' :: p.1, p.2))
        else if e = '\\' then (parseStringBody rest2).map (fun p => ('\\' :: p.1, p.2))
        else if e = '/' then (parseStringBody rest2).map (fun p => ('/' :: p.1, p.2))
        else if e = 'n' then (parseStringBody rest2).map (fun p => ('\n' :: p.1, p.2))
        else if e = 't' then (parseStringBody rest2).map (fun p => ('\t' :: p.1, p.2))
        else if e = 'r' then (parseStringBody rest2).map (fun p => ('\r' :: p.1, p.2))
        else if e = 'b' then (parseStringBody rest2).map (fun p => (Char.ofNat 8 :: p.1, p.2))
        else if e = 'f' then (parseStringBody rest2).map (fun p => (Char.ofNat 12 :: p.1, p.2))
        else if e = 'u' then
          match rest2 with
          | h1 :: h2 :: h3 :: h4 :: rest3 =>
            match hexVal h1, hexVal h2, hexVal h3, hexVal h4 with
            | some a, some b, some c2, some d =>
              (parseStringBody rest3).map
                (fun p => (Char.ofNat (a * 4096 + b * 256 + c2 * 16 + d) :: p.1, p.2))
            | _, _, _, _ => none
          | _ => none
        else none
    else if c.toNat < 32 then none
    else (parseStringBody rest).map (fun p => (c :: p.1, p.2))
termination_by cs => cs.length
decreasing_by all_goals (simp_all <;> omega)

/-- Numeric value of a list of decimal digit characters. -/
def natFromDigits (ds : List Char) : Nat :=
  ds.foldl (fun a c => a * 10 + (c.toNat - 48)) 0

/-- Parse a JSON number starting at the current position: optional
minus sign, integer part without leading zeros, optional fraction,
optional exponent. -/
def parseNumberAt (cs : List Char) : Option (Json × List Char) :=
  let signSplit : Bool × List Char :=
    match cs with
    | c :: r => if c = '-' then (true, r) else (false, cs)
    | [] => (false, cs)
  let neg := signSplit.1
  let cs1 := signSplit.2
  let intDs := cs1.takeWhile Char.isDigit
  let cs2 := cs1.drop intDs.length
  if intDs.isEmpty then none
  else if 2 ≤ intDs.length && intDs.headD 'x' = '0' then none
  else
    let fracSplit : Bool × List Char × List Char :=
      match cs2 with
      | c :: r =>
        if c = '.' then
          let fd := r.takeWhile Char.isDigit
          (!fd.isEmpty, fd, r.drop fd.length)
        else (true, [], cs2)
      | [] => (true, [], cs2)
    if !fracSplit.1 then none
    else
      let fracDs := fracSplit.2.1
      let cs3 := fracSplit.2.2
      let expSplit : Bool × Bool × List Char × List Char :=
        match cs3 with
        | c :: r =>
          if c = 'e' || c = 'E' then
            match r with
            | s :: r2 =>
              if s = '+' then
                let ed := r2.takeWhile Char.isDigit
                (!ed.isEmpty, false, ed, r2.drop ed.length)
              else if s = '-' then
                let ed := r2.takeWhile Char.isDigit
                (!ed.isEmpty, true, ed, r2.drop ed.length)
              else
                let ed := r.takeWhile Char.isDigit
                (!ed.isEmpty, false, ed, r.drop ed.length)
            | [] => (false, false, [], r)
          else (true, false, [], cs3)
        | [] => (true, false, [], cs3)
      if !expSplit.1 then none
      else
        let expNeg := expSplit.2.1
        let expDs := expSplit.2.2.1
        let cs4 := expSplit.2.2.2
        let mantissa : Int :=
          (if neg then -1 else 1) *
            (Int.ofNat (natFromDigits intDs * 10 ^ fracDs.length + natFromDigits fracDs))
        let e := natFromDigits expDs
        let value : Rat :=
          if fracDs.isEmpty && expDs.isEmpty then mkRat mantissa 1
          else if expNeg then mkRat mantissa (10 ^ fracDs.length) / (10 : Rat) ^ e
          else mkRat mantissa (10 ^ fracDs.length) * (10 : Rat) ^ e
        some (Json.num value, cs4)

mutual

/-- Parse one JSON value (fuel-bounded). -/
def parseValue : Nat → List Char → Option (Json × List Char)
  | 0, _ => none
  | fuel + 1, cs =>
    match skipWs cs with
    | [] => none
    | c :: rest =>
      if c = '"' then
        (parseStringBody rest).map (fun p => (Json.str (String.mk p.1), p.2))
      else if c = Char.ofNat 123 then
        (parseObjBody fuel rest).map (fun p => (Json.obj p.1, p.2))
      else if c = '[' then
        (parseArrBody fuel rest).map (fun p => (Json.arr p.1, p.2))
      else
        match c :: rest with
        | 't' :: 'r' :: 'u' :: 'e' :: r => some (Json.bool true, r)
        | 'f' :: 'a' :: 'l' :: 's' :: 'e' :: r => some (Json.bool false, r)
        | 'n' :: 'u' :: 'l' :: 'l' :: r => some (Json.null, r)
        | cs2 => parseNumberAt cs2

/-- Parse the members of a JSON object after the opening brace. -/
def parseObjBody : Nat → List Char → Option (List (String × Json) × List Char)
  | 0, _ => none
  | fuel + 1, cs =>
    match skipWs cs with
    | c :: rest =>
      if c = Char.ofNat 125 then some ([], rest)
      else
        match parseMember fuel (c :: rest) with
        | some (kv, rest2) => parseMembersRest fuel [kv] rest2
        | none => none
    | [] => none

/-- Parse one key-value member of a JSON object. -/
def parseMember : Nat → List Char → Option ((String × Json) × List Char)
  | 0, _ => none
  | fuel + 1, cs =>
    match skipWs cs with
    | c :: rest =>
      if c = '"' then
        match parseStringBody rest with
        | some (key, rest2) =>
          match skipWs rest2 with
          | d :: rest3 =>
            if d = ':' then
              match parseValue fuel rest3 with
              | some (v, rest4) => some ((String.mk key, v), rest4)
              | none => none
            else none
          | [] => none
        | none => none
      else none
    | [] => none

/-- Parse the remaining members of a JSON object after the first. -/
def parseMembersRest :
    Nat → List (String × Json) → List Char → Option (List (String × Json) × List Char)
  | 0, _, _ => none
  | fuel + 1, acc, cs =>
    match skipWs cs with
    | c :: rest =>
      if c = ',' then
        match parseMember fuel rest with
        | some (kv, rest2) => parseMembersRest fuel (acc ++ [kv]) rest2
        | none => none
      else if c = Char.ofNat 125 then some (acc, rest)
      else none
    | [] => none

/-- Parse the elements of a JSON array after the opening bracket. -/
def parseArrBody : Nat → List Char → Option (List Json × List Char)
  | 0, _ => none
  | fuel + 1, cs =>
    match skipWs cs with
    | c :: rest =>
      if c = ']' then some ([], rest)
      else
        match parseValue fuel (c :: rest) with
        | some (v, rest2) => parseElemsRest fuel [v] rest2
        | none => none
    | [] => none

/-- Parse the remaining elements of a JSON array after the first. -/
def parseElemsRest : Nat → List Json → List Char → Option (List Json × List Char)
  | 0, _, _ => none
  | fuel + 1, acc, cs =>
    match skipWs cs with
    | c :: rest =>
      if c = ',' then
        match parseValue fuel rest with
        | some (v, rest2) => parseElemsRest fuel (acc ++ [v]) rest2
        | none => none
      else if c = ']' then some (acc, rest)
      else none
    | [] => none

end

/-- Model of the JavaScript JSON.parse: parse one value, allow trailing
whitespace, and reject any other trailing input. -/
def jsonParse (s : String) : Option Json :=
  match parseValue (2 * s.data.length + 8) s.data with
  | some (v, rest) => if skipWs rest = [] then some v else none
  | none => none

/-! ## src/message.js -/

/-- Event record as produced by the parsing functions of message.js.
Both fields hold JavaScript values: the functions of the source return
plain objects whose msg and event_name properties are whatever the
expressions obj.msg || and obj.event_name || produce. -/
structure EventMessage where
  msg : Json
  event_name : Json

/-- message.js, EventMessage.fromJSON: JSON.parse the line inside a
try block, then read obj.msg with default empty string and
obj.event_name with default the literal default, using JavaScript
falsiness for the defaults. A parse failure throws; so does the
property access when the parsed value is null (TypeError), and the
surrounding catch rethrows either as an Invalid JSON format error.
The error message text is not modelled. -/
def EventMessage.fromJSON (json : String) : Except String EventMessage :=
  match jsonParse json with
  | none => .error "Invalid JSON format"
  | some Json.null => .error "Invalid JSON format"
  | some v =>
    .ok { msg := jsOr (jsMember v "msg") (Json.str ""),
          event_name := jsOr (jsMember v "event_name") (Json.str "default") }

/-- message.js, EventMessage.fromSimpleFormat: split the text on the
colon; with at least two parts the first part trimmed is the event
name and the remaining parts rejoined with colons and trimmed are the
message; otherwise the event name is the literal default and the
message is the whole text trimmed. -/
def EventMessage.fromSimpleFormat (text : String) : EventMessage :=
  let parts := splitOnChar ':' text.data
  if 2 ≤ parts.length then
    { event_name := Json.str (String.mk (jsTrimList (parts.headD []))),
      msg := Json.str (String.mk (jsTrimList (joinChar ':' parts.tail))) }
  else
    { event_name := Json.str "default",
      msg := Json.str (jsTrim text) }

/-- message.js, EventMessage.create: JSON.stringify of the object with
fields msg and event_name, in that insertion order. -/
def EventMessage.create (msg : String) (eventName : String := "default") : String :=
  String.mk (stringifyPairData msg eventName)

/-- Simple-format decoding as the specification words it, for
comparison with EventMessage.fromSimpleFormat: when the line contains
a colon, the segment left of the first colon (trimmed) is the event
name and everything after the first colon, further colons included
(trimmed), is the message; when it contains no colon, the event name
is the literal default and the message is the whole trimmed line. -/
def simpleSpecFormat (text : String) : EventMessage :=
  let cs := text.data
  if ':' ∈ cs then
    { event_name := Json.str (String.mk (jsTrimList (cs.takeWhile (fun c => c != ':')))),
      msg := Json.str (String.mk (jsTrimList ((cs.dropWhile (fun c => c != ':')).tail))) }
  else
    { event_name := Json.str "default",
      msg := Json.str (String.mk (jsTrimList cs)) }

/-- A JSON number, boolean or string: the non-null primitive values of
claim C10. -/
def isPrimNonNull : Json → Bool
  | .num _ => true
  | .bool _ => true
  | .str _ => true
  | _ => false

/-! ## src/event-listener.js: message handling and dispatch

Callbacks are identified by natural numbers; a callback environment
says which callbacks throw when invoked (the behaviour of a callback
is irrelevant to the dispatch structure, which is the point of the
isolation property). The listeners field of the EventListener is a
JavaScript Map from event-name strings to insertion-ordered sets of
callbacks; it is modelled as an association list of event name and
callback list, keys unique and both orders insertion order. -/

/-- A callback handle. -/
abbrev Cb := Nat

/-- The listeners map: event name to registered callbacks. -/
abbrev Listeners := List (String × List Cb)

/-- Map.get on the listeners map, with a string key (Map.has is
matching the same entry). -/
def lookupKey (m : Listeners) (k : String) : Option (List Cb) :=
  (m.find? (fun p => p.1 == k)).map (fun p => p.2)

/-- Map.get on the listeners map with an arbitrary JavaScript value as
key: Map keys are compared with SameValueZero, so a value only matches
a string key when it is that very string. -/
def lookupKeyJs (m : Listeners) (key : Json) : Option (List Cb) :=
  match key with
  | Json.str s => lookupKey m s
  | _ => none

/-- One invocation record of a callback during dispatch: which
callback ran and whether it threw (the handler catches the throw, logs
it, and the loop continues with the next callback). -/
structure CallbackRun where
  cb : Cb
  errored : Bool

/-- Run a group of callbacks in order: each invocation is wrapped in
its own try/catch, so a throwing callback is recorded as errored and
the recursion continues regardless. -/
def runCallbacks (throws : Cb → Bool) : List Cb → List CallbackRun
  | [] => []
  | c :: rest => { cb := c, errored := throws c } :: runCallbacks throws rest

/-- event-listener.js, handleMessage, dispatch of one parsed event
message: the callbacks registered under the event name run first (when
the map has that key), then the callbacks registered under the
wildcard key, each group in registration order. -/
def dispatchMessage (m : Listeners) (throws : Cb → Bool) (em : EventMessage) :
    List CallbackRun :=
  (match lookupKeyJs m em.event_name with
   | some cbs => runCallbacks throws cbs
   | none => []) ++
  (match lookupKey m "*" with
   | some cbs => runCallbacks throws cbs
   | none => [])

/-- event-listener.js, handleMessage, parsing of one line: try
EventMessage.fromJSON and fall back to EventMessage.fromSimpleFormat
when it throws. -/
def parseLine (line : String) : EventMessage :=
  match EventMessage.fromJSON line with
  | .ok em => em
  | .error _ => EventMessage.fromSimpleFormat line

/-- event-listener.js, handleMessage, line extraction: the chunk is
split on the newline character and the segments that are empty or
whitespace-only after trimming are discarded. -/
def messageLines (data : String) : List String :=
  ((splitOnChar '\n' data.data).map String.mk).filter
    (fun line => 0 < (jsTrim line).length)

/-- Event records decoded from one data chunk by handleMessage. -/
def recordsOfData (data : String) : List EventMessage :=
  (messageLines data).map parseLine

/-- Event records decoded from a sequence of data chunks: the data
handler installed by start passes each chunk to handleMessage
separately, and no state is carried between chunks. -/
def recordsOfChunks (chunks : List String) : List EventMessage :=
  (chunks.map recordsOfData).flatten

/-- All callback invocations performed while handling one data chunk. -/
def handleMessageRuns (m : Listeners) (throws : Cb → Bool) (data : String) :
    List CallbackRun :=
  ((recordsOfData data).map (dispatchMessage m throws)).flatten

/-! ## src/event-listener.js: connection state machine

The mutable fields of the EventListener, together with the pending
reconnect timers created by handleReconnect (setTimeout with no
matching clearTimeout anywhere in the source) and the resolved flag of
the promise produced by the most recent start call. The environment
drives the machine with the socket events in the order the Node
runtime emits them; observable effects are collected as outputs. -/

structure LState where
  socketLive : Bool
  lastResolved : Bool
  isListening : Bool
  listeners : Listeners
  reconnectAttempts : Nat
  maxReconnectAttempts : Nat
  reconnectDelay : Nat
  pendingRetries : List Nat
deriving DecidableEq, Repr

/-- Field values set by the EventListener constructor. -/
def initL : LState :=
  { socketLive := false, lastResolved := true, isListening := false,
    listeners := [], reconnectAttempts := 0, maxReconnectAttempts := 5,
    reconnectDelay := 1000, pendingRetries := [] }

/-- Events delivered to the machine: the caller operations start and
stop, the socket callbacks (successful connect, error, close), and the
firing of the earliest pending reconnect timer. -/
inductive LEv where
  | startCall : LEv
  | connectOk : LEv
  | sockError : LEv
  | sockClose : LEv
  | timerFire : LEv
  | stopCall : LEv
deriving DecidableEq, Repr

/-- Observable outputs: the start promise settling either way, a
reconnect delay being scheduled, and a fresh connection attempt being
initiated (a new socket object created and connect called on it). -/
inductive LOut where
  | startResolved : LOut
  | startRejected : LOut
  | scheduled : Nat → LOut
  | connectAttempt : LOut
deriving DecidableEq, Repr

/-- event-listener.js, handleReconnect: below the attempt cap,
increment the attempt counter and schedule a retry after
reconnectDelay times the new counter; at the cap, log exhaustion and
do nothing. Returns the scheduled delay, if any. -/
def handleReconnect (st : LState) : LState × Option Nat :=
  if st.maxReconnectAttempts ≤ st.reconnectAttempts then (st, none)
  else
    let a := st.reconnectAttempts + 1
    ({ st with reconnectAttempts := a,
               pendingRetries := st.pendingRetries ++ [st.reconnectDelay * a] },
     some (st.reconnectDelay * a))

/-- event-listener.js, body of start: an immediate return when already
listening, otherwise a new socket is created (with a fresh unresolved
promise) and a connection attempt is initiated. -/
def startBody (st : LState) : LState × List LOut :=
  if st.isListening then (st, [])
  else ({ st with socketLive := true, lastResolved := false }, [.connectAttempt])

/-- One step of the connection machine. connectOk is the connect
callback (resolve, mark listening, reset the attempt counter);
sockError rejects the pending start promise when unresolved and
otherwise logs and calls handleReconnect; sockClose clears isListening
and always calls handleReconnect; stop destroys the socket and clears
the subscriptions but cancels no pending timer; timerFire pops the
earliest pending retry and runs the body of start. -/
def stepL (st : LState) (ev : LEv) : LState × List LOut :=
  match ev with
  | .startCall => startBody st
  | .connectOk =>
    if st.lastResolved then (st, [])
    else ({ st with lastResolved := true, isListening := true, reconnectAttempts := 0 },
          [.startResolved])
  | .sockError =>
    if st.lastResolved then
      let r := handleReconnect st
      (r.1, match r.2 with | some d => [.scheduled d] | none => [])
    else ({ st with lastResolved := true }, [.startRejected])
  | .sockClose =>
    let r := handleReconnect { st with isListening := false }
    (r.1, match r.2 with | some d => [.scheduled d] | none => [])
  | .stopCall =>
    ({ st with socketLive := false, isListening := false, listeners := [] }, [])
  | .timerFire =>
    match st.pendingRetries with
    | [] => (st, [])
    | _ :: rest => startBody { st with pendingRetries := rest }

/-- Run the machine over a trace of events, collecting outputs. -/
def runL (st : LState) : List LEv → LState × List LOut
  | [] => (st, [])
  | ev :: evs =>
    let r := stepL st ev
    let r2 := runL r.1 evs
    (r2.1, r.2 ++ r2.2)

/-- The reconnect delays among a list of outputs, in order. -/
def scheduledOf (outs : List LOut) : List Nat :=
  outs.filterMap (fun o => match o with | .scheduled d => some d | _ => none)

/-! ## src/registration-client.js

The register method opens a socket and installs a data handler; the
handler appends each received chunk to the accumulated responseData
string and then either, when the accumulated data contains the
registration banner, writes the REGISTER command, or else, when it
contains an OK: or ERROR: marker, scans the accumulated lines for the
first terminal line and settles the promise, destroying the socket.
The model processes the sequence of data chunks the server sends;
after the promise settles the socket has been destroyed, so no
further data events arrive. -/

/-- The constructor-derived session parameters used by register. -/
structure RegParams where
  consumerId : String
  consumerHost : String
  consumerPort : Nat
  events : List String

/-- The REGISTER command line: consumer id, tcp endpoint, then the
space-separated event list prefixed with one space, omitted entirely
when the list is empty; terminated by a newline. -/
def registerCommand (p : RegParams) : String :=
  let eventsStr := if 0 < p.events.length then " " ++ String.intercalate " " p.events else ""
  "REGISTER " ++ p.consumerId ++ " tcp://" ++ p.consumerHost ++ ":" ++
    toString p.consumerPort ++ eventsStr ++ "\n"

/-- Mutable state of one register session: the accumulated response
data, the commands written so far, and the settled outcome of the
promise, if any (ok carries the resolved value, error the rejection
reason). -/
structure RegState where
  responseData : String
  sent : List String
  outcome : Option (Except String String)

/-- State of a register session before any data arrives. -/
def regInit : RegState :=
  { responseData := "", sent := [], outcome := none }

/-- Scan the split lines of the accumulated data for the first line
starting with OK: (resolve with the consumer host:port) or with ERROR:
(reject with the text after the six-character prefix). -/
def scanLines (p : RegParams) : List String → Option (Except String String)
  | [] => none
  | line :: rest =>
    if startsWithStr line "OK:" then
      some (.ok (p.consumerHost ++ ":" ++ toString p.consumerPort))
    else if startsWithStr line "ERROR:" then
      some (.error (substringFrom line 6))
    else scanLines p rest

/-- The data handler of register, on one chunk. The accumulated data
is extended first; the banner test on the accumulated data takes
priority over the terminal-response test, and a settled session
receives no further chunks because the socket was destroyed. -/
def regOnData (p : RegParams) (st : RegState) (chunk : String) : RegState :=
  if st.outcome.isSome then st
  else
    let rd := st.responseData ++ chunk
    if containsSub rd "REGISTRATION_SERVER" then
      { responseData := rd, sent := st.sent ++ [registerCommand p], outcome := st.outcome }
    else if containsSub rd "OK:" || containsSub rd "ERROR:" then
      match scanLines p ((splitOnChar '\n' rd.data).map String.mk) with
      | some r => { responseData := rd, sent := st.sent, outcome := some r }
      | none => { responseData := rd, sent := st.sent, outcome := st.outcome }
    else
      { responseData := rd, sent := st.sent, outcome := st.outcome }

/-- Run a register session over the chunks the server sends. -/
def regRun (p : RegParams) (chunks : List String) : RegState :=
  chunks.foldl (regOnData p) regInit

/-! ## Lemmas about the split and join primitives -/

theorem splitAux_snd_nil_iff (sep : Char) (cs : List Char) :
    (splitAux sep cs).2 = [] ↔ sep ∉ cs := by
  induction cs with
  | nil => simp [splitAux]
  | cons c rest ih =>
    by_cases h : c = sep
    · subst h; simp [splitAux]
    · simp only [splitAux, if_neg h]
      rw [ih]
      constructor
      · intro hr hmem
        rcases List.mem_cons.1 hmem with he | hm
        · exact h he.symm
        · exact hr hm
      · intro hcr hm
        exact hcr (List.mem_cons_of_mem c hm)

theorem splitAux_fst_eq (sep : Char) (cs : List Char) :
    (splitAux sep cs).1 = cs.takeWhile (fun c => c != sep) := by
  induction cs with
  | nil => simp [splitAux]
  | cons c rest ih =>
    by_cases h : c = sep <;> simp [splitAux, h, ih]

theorem joinChar_splitAux (sep : Char) (cs : List Char) :
    joinChar sep ((splitAux sep cs).1 :: (splitAux sep cs).2) = cs := by
  induction cs with
  | nil => rfl
  | cons c rest ih =>
    by_cases h : c = sep
    · subst h
      simp only [splitAux, if_pos rfl]
      simpa [joinChar] using ih
    · simp only [splitAux, if_neg h]
      cases hr : (splitAux sep rest).2 with
      | nil =>
        rw [hr] at ih
        simp only [joinChar] at ih ⊢
        rw [ih]
      | cons y t =>
        rw [hr] at ih
        simp only [joinChar] at ih ⊢
        simp [ih]

theorem joinChar_splitAux_snd (sep : Char) (cs : List Char) :
    joinChar sep (splitAux sep cs).2 = (cs.dropWhile (fun c => c != sep)).tail := by
  induction cs with
  | nil => rfl
  | cons c rest ih =>
    by_cases h : c = sep
    · subst h
      simp only [splitAux, if_pos rfl, List.dropWhile, bne_self_eq_false, List.tail_cons]
      exact joinChar_splitAux c rest
    · have hb : (c != sep) = true := by simpa using h
      simp [splitAux, if_neg h, List.dropWhile, hb, ih]

/-! ## Claim C9: simple-format decoding -/

/-- Claim C9: simple-format decoding is total over every line and
matches the first-colon description: with a colon present the left
segment trimmed is the event name and everything after the first
colon trimmed is the message, without one the event name is the
literal default and the message is the whole trimmed line; in
particular the three documented examples decode as stated. -/
theorem fromSimpleFormat_first_colon_spec :
    (∀ text : String, EventMessage.fromSimpleFormat text = simpleSpecFormat text) ∧
    EventMessage.fromSimpleFormat "user_login:hello" =
      { event_name := Json.str "user_login", msg := Json.str "hello" } ∧
    EventMessage.fromSimpleFormat "hello:world:again" =
      { event_name := Json.str "hello", msg := Json.str "world:again" } ∧
    EventMessage.fromSimpleFormat "plain text" =
      { event_name := Json.str "default", msg := Json.str "plain text" } := by
  refine ⟨?_, rfl, rfl, rfl⟩
  intro text
  by_cases h : ':' ∈ text.data
  · have h2 : (splitAux ':' text.data).2 ≠ [] := by
      rw [Ne, splitAux_snd_nil_iff]; simpa using h
    have hcond : 2 ≤ ((splitAux ':' text.data).1 :: (splitAux ':' text.data).2).length := by
      have hpos := List.length_pos.2 h2
      simp only [List.length_cons]
      omega
    simp only [EventMessage.fromSimpleFormat, simpleSpecFormat, splitOnChar]
    rw [if_pos hcond, if_pos h]
    simp only [List.headD_cons, List.tail_cons, splitAux_fst_eq, joinChar_splitAux_snd]
  · have h2 : (splitAux ':' text.data).2 = [] := (splitAux_snd_nil_iff ':' text.data).2 h
    have hcond : ¬ 2 ≤ ((splitAux ':' text.data).1 :: (splitAux ':' text.data).2).length := by
      simp [h2]
    simp only [EventMessage.fromSimpleFormat, simpleSpecFormat, splitOnChar]
    rw [if_neg hcond, if_neg h]
    rfl

/-! ## Claim C7: dispatch order and callback isolation -/

theorem runCallbacks_map_cb (throws : Cb → Bool) (l : List Cb) :
    (runCallbacks throws l).map CallbackRun.cb = l := by
  induction l with
  | nil => rfl
  | cons c rest ih => simp [runCallbacks, ih]

theorem runCallbacks_errored (throws : Cb → Bool) (l : List Cb) :
    ∀ r ∈ runCallbacks throws l, r.errored = throws r.cb := by
  induction l with
  | nil => intro r hr; simp [runCallbacks] at hr
  | cons c rest ih =>
    intro r hr
    rcases List.mem_cons.1 hr with h | h
    · subst h; rfl
    · exact ih r h

/-- Claim C7: dispatching a record whose event name is the string
name invokes exactly the callbacks registered under name followed by
the callbacks registered under the wildcard key, in registration order
within each group, independently of which callbacks throw; and every
invocation record carries exactly the throw outcome of its callback,
so a throwing callback never removes a later invocation. -/
theorem dispatch_exact_then_wildcard (m : Listeners) (throws : Cb → Bool)
    (name : String) (content : Json) :
    ((dispatchMessage m throws { msg := content, event_name := Json.str name }).map
        CallbackRun.cb =
      (lookupKey m name).getD [] ++ (lookupKey m "*").getD []) ∧
    (∀ r ∈ dispatchMessage m throws { msg := content, event_name := Json.str name },
      r.errored = throws r.cb) := by
  constructor
  · simp only [dispatchMessage, lookupKeyJs, List.map_append]
    cases lookupKey m name <;> cases lookupKey m "*" <;>
      simp [runCallbacks_map_cb]
  · intro r hr
    simp only [dispatchMessage, lookupKeyJs] at hr
    rcases List.mem_append.1 hr with h1 | h1
    · revert h1
      cases lookupKey m name with
      | none => intro h1; simp at h1
      | some cbs => exact fun h1 => runCallbacks_errored throws cbs r h1
    · revert h1
      cases lookupKey m "*" with
      | none => intro h1; simp at h1
      | some cbs => exact fun h1 => runCallbacks_errored throws cbs r h1

/-! ## Claim C6: bounded linear-backoff reconnection -/

/-- Claim C6: below the cap of five attempts, each invocation of
handleReconnect increments the attempt counter and schedules a retry
after the base delay times the new attempt number; at the cap it
schedules nothing; a run of six post-connection failures therefore
schedules exactly the delays 1000 through 5000 and then stops, a
successful connect resets the counter (the final 1000 in the closed
run follows a manual restart), and the connect callback always resets
the attempt counter to zero. -/
theorem reconnect_linear_backoff_capped :
    (∀ st : LState, st.reconnectAttempts < st.maxReconnectAttempts →
        handleReconnect st =
          ({ st with
              reconnectAttempts := st.reconnectAttempts + 1,
              pendingRetries :=
                st.pendingRetries ++ [st.reconnectDelay * (st.reconnectAttempts + 1)] },
           some (st.reconnectDelay * (st.reconnectAttempts + 1)))) ∧
    (∀ st : LState, st.maxReconnectAttempts ≤ st.reconnectAttempts →
        handleReconnect st = (st, none)) ∧
    (∀ st : LState, st.lastResolved = false →
        ((stepL st LEv.connectOk).1).reconnectAttempts = 0) ∧
    scheduledOf (runL initL
      ([LEv.startCall, LEv.connectOk, LEv.sockClose] ++
       [LEv.timerFire, LEv.sockError, LEv.sockClose] ++
       [LEv.timerFire, LEv.sockError, LEv.sockClose] ++
       [LEv.timerFire, LEv.sockError, LEv.sockClose] ++
       [LEv.timerFire, LEv.sockError, LEv.sockClose] ++
       [LEv.timerFire, LEv.sockError, LEv.sockClose] ++
       [LEv.sockClose] ++
       [LEv.startCall, LEv.connectOk, LEv.sockClose])).2 =
      [1000, 2000, 3000, 4000, 5000, 1000] := by
  refine ⟨?_, ?_, ?_, rfl⟩
  · intro st h
    rw [handleReconnect, if_neg (Nat.not_le.2 h)]
  · intro st h
    rw [handleReconnect, if_pos h]
  · intro st h
    simp [stepL, h]

/-- Witness instantiating the reconnect characterisation at concrete
states: the first reconnect from the initial state schedules 1000 ms,
a state at five attempts schedules nothing, and a successful connect
resets the counter. -/
theorem reconnect_linear_backoff_capped_witness :
    handleReconnect initL =
      ({ initL with reconnectAttempts := 0 + 1, pendingRetries := [] ++ [1000 * (0 + 1)] },
       some (1000 * (0 + 1))) ∧
    handleReconnect { initL with reconnectAttempts := 5 } =
      ({ initL with reconnectAttempts := 5 }, none) ∧
    ((stepL { initL with lastResolved := false } LEv.connectOk).1).reconnectAttempts = 0 :=
  ⟨reconnect_linear_backoff_capped.1 initL (by decide),
   reconnect_linear_backoff_capped.2.1 { initL with reconnectAttempts := 5 } (by decide),
   reconnect_linear_backoff_capped.2.2.1 { initL with lastResolved := false } rfl⟩

/-! ## Claim C2: stop during a pending reconnect wait -/

/-- Claim C2 evaluated on the code: from a fresh listener, connect,
drop the connection (scheduling a retry), call stop while the retry is
pending, then let the timer fire and the connect succeed. The timer
was never cancelled and the body of start only checks isListening,
which stop set to false, so a fresh connection attempt is made and the
listener is listening again after stop. -/
theorem stop_leaves_pending_reconnect_live :
    ((runL initL [LEv.startCall, LEv.connectOk, LEv.sockClose, LEv.stopCall,
        LEv.timerFire, LEv.connectOk]).1).isListening = true ∧
    (runL initL [LEv.startCall, LEv.connectOk, LEv.sockClose, LEv.stopCall,
        LEv.timerFire, LEv.connectOk]).2 =
      [LOut.connectAttempt, LOut.startResolved, LOut.scheduled 1000,
       LOut.connectAttempt, LOut.startResolved] :=
  ⟨rfl, rfl⟩

/-! ## Claim C5: failure of the initial connection attempt -/

/-- Counterexample to claim C5: after a failed first connection
attempt (error then close on the never-connected socket), the start
promise is rejected but a reconnect wait of 1000 ms is also scheduled,
and when it fires a new connection attempt is made: the manager does
automatically retry the first attempt. -/
theorem first_attempt_failure_autoretries :
    (runL initL [LEv.startCall, LEv.sockError, LEv.sockClose, LEv.timerFire]).2 =
      [LOut.connectAttempt, LOut.startRejected, LOut.scheduled 1000,
       LOut.connectAttempt] ∧
    ((runL initL [LEv.startCall, LEv.sockError, LEv.sockClose]).1).pendingRetries =
      [1000] :=
  ⟨rfl, rfl⟩

/-- Claim C5 as amended: the error of a failed initial connection
attempt is surfaced to the start caller as a rejection, but the close
event accompanying the failure still invokes the reconnect machinery,
which schedules an automatic retry of the first attempt. -/
theorem first_attempt_failure_surfaced_and_retried :
    (runL initL [LEv.startCall, LEv.sockError]).2 =
      [LOut.connectAttempt, LOut.startRejected] ∧
    (runL initL [LEv.startCall, LEv.sockError, LEv.sockClose]).2 =
      [LOut.connectAttempt, LOut.startRejected, LOut.scheduled 1000] :=
  ⟨rfl, rfl⟩

/-! ## Claims C1 and C4: the register data handler -/

/-- Claim C1 evaluated on the code: in a session where the server
first sends the banner and then a terminal OK or ERROR line, the
accumulated response data always still contains the banner, so the
handler takes the banner branch again (rewriting the REGISTER
command) and the terminal branch is unreachable: the promise never
settles from a terminal line. The reason-extraction logic itself is
correct but reachable only when the terminal line arrives with no
banner ever seen. -/
theorem register_terminal_branch_unreachable :
    (regRun ⟨"c1", "127.0.0.1", 9000, []⟩
        ["REGISTRATION_SERVER\n", "OK:registered\n"]).outcome = none ∧
    (regRun ⟨"c1", "127.0.0.1", 9000, []⟩
        ["REGISTRATION_SERVER\n", "OK:registered\n"]).sent =
      ["REGISTER c1 tcp://127.0.0.1:9000\n", "REGISTER c1 tcp://127.0.0.1:9000\n"] ∧
    (regRun ⟨"c1", "127.0.0.1", 9000, []⟩
        ["REGISTRATION_SERVER\n", "ERROR:unknown consumer\n"]).outcome = none ∧
    (regRun ⟨"c1", "127.0.0.1", 9000, []⟩
        ["ERROR:unknown consumer\n"]).outcome = some (Except.error "unknown consumer") :=
  ⟨rfl, rfl, rfl, rfl⟩

/-- Claim C4 evaluated on the code: the command written on the banner
chunk has exactly the documented shape, with the event list omitted
entirely when empty; but the command is written once per data chunk
received while the accumulated data contains the banner, so a second
chunk before the terminal response produces a second REGISTER line,
violating one command total per session. -/
theorem register_command_shape_but_resent :
    (regRun ⟨"c1", "127.0.0.1", 9000, ["a", "b"]⟩ ["REGISTRATION_SERVER\n"]).sent =
      ["REGISTER c1 tcp://127.0.0.1:9000 a b\n"] ∧
    (regRun ⟨"c1", "127.0.0.1", 9000, []⟩ ["REGISTRATION_SERVER\n"]).sent =
      ["REGISTER c1 tcp://127.0.0.1:9000\n"] ∧
    (regRun ⟨"c1", "127.0.0.1", 9000, []⟩ ["REGISTRATION_SERVER\n", "x"]).sent =
      ["REGISTER c1 tcp://127.0.0.1:9000\n", "REGISTER c1 tcp://127.0.0.1:9000\n"] :=
  ⟨rfl, rfl, rfl⟩

/-! ## Claim C3: line framing across reads -/

/-- Counterexample to claim C3: a logical line fragmented across two
reads is decoded as two separate records, not one: the partial leading
chunk is parsed immediately rather than buffered until its
terminator. -/
theorem fragmented_line_yields_two_records :
    recordsOfChunks ["user_login:he", "llo\n"] =
      [{ msg := Json.str "he", event_name := Json.str "user_login" },
       { msg := Json.str "llo", event_name := Json.str "default" }] ∧
    recordsOfChunks ["user_login:he", "llo\n"] ≠
      [{ msg := Json.str "hello", event_name := Json.str "user_login" }] :=
  ⟨rfl, fun hcontra => absurd (congrArg List.length hcontra) (by decide)⟩

/-- Claim C3 as amended: each read is handled independently; the chunk
is split on the newline and every segment that is not whitespace-only,
a trailing unterminated segment included, is decoded and dispatched
immediately; no receive buffer is carried between reads, so a line
split across two reads yields one record per read. -/
theorem chunks_processed_independently :
    (∀ c1 c2 : String, recordsOfChunks [c1, c2] = recordsOfData c1 ++ recordsOfData c2) ∧
    (∀ data : String, recordsOfData data = (messageLines data).map parseLine) ∧
    recordsOfData "user_login:he" =
      [{ msg := Json.str "he", event_name := Json.str "user_login" }] ∧
    recordsOfChunks ["user_login:hello\n"] =
      [{ msg := Json.str "hello", event_name := Json.str "user_login" }] := by
  refine ⟨?_, fun _ => rfl, rfl, rfl⟩
  intro c1 c2
  simp [recordsOfChunks]

/-! ## Round trip of the stringify escaping through the parser -/

theorem hexVal_hexDigitChar : ∀ n : Nat, n < 16 → hexVal (hexDigitChar n) = some n := by
  decide

theorem skipWs_cons_of (c : Char) (l : List Char) (h : jsonWs c = false) :
    skipWs (c :: l) = c :: l := by
  simp [skipWs, List.dropWhile_cons, h]

theorem parseStringBody_escape (s : List Char) :
    ∀ rest : List Char, parseStringBody (escapeList s ++ '"' :: rest) = some (s, rest) := by
  induction s with
  | nil =>
    intro rest
    rw [show escapeList [] ++ '"' :: rest = '"' :: rest by simp [escapeList]]
    rw [parseStringBody.eq_def]
    simp
  | cons c cs ih =>
    intro rest
    have hstep : escapeList (c :: cs) ++ '"' :: rest =
        escapeChar c ++ (escapeList cs ++ '"' :: rest) := by
      simp [escapeList]
    rw [hstep]
    by_cases h1 : c = '"'
    · subst h1
      rw [parseStringBody.eq_def]
      simp [escapeChar, ih]
    by_cases h2 : c = '\\'
    · subst h2
      rw [parseStringBody.eq_def]
      simp [escapeChar, ih]
    by_cases h3 : c = '\n'
    · subst h3
      rw [parseStringBody.eq_def]
      simp [escapeChar, ih]
    by_cases h4 : c = '\t'
    · subst h4
      rw [parseStringBody.eq_def]
      simp [escapeChar, ih]
    by_cases h5 : c = '\r'
    · subst h5
      rw [parseStringBody.eq_def]
      simp [escapeChar, ih]
    by_cases h6 : c = Char.ofNat 8
    · subst h6
      rw [parseStringBody.eq_def]
      simp [escapeChar, ih]
    by_cases h7 : c = Char.ofNat 12
    · subst h7
      rw [parseStringBody.eq_def]
      simp [escapeChar, ih]
    by_cases h8 : c.toNat < 32
    · have hdiv : c.toNat / 16 < 16 := by omega
      have hmod : c.toNat % 16 < 16 := Nat.mod_lt _ (by norm_num)
      have hv0 : hexVal '0' = some 0 := by decide
      have harith : c.toNat / 16 * 16 + c.toNat % 16 = c.toNat := by omega
      simp only [escapeChar, if_neg h1, if_neg h2, if_neg h3, if_neg h4, if_neg h5,
        if_neg h6, if_neg h7, if_pos h8, List.cons_append, List.nil_append]
      rw [parseStringBody.eq_def]
      simp [hv0, hexVal_hexDigitChar _ hdiv, hexVal_hexDigitChar _ hmod, ih, harith]
    · simp only [escapeChar, if_neg h1, if_neg h2, if_neg h3, if_neg h4, if_neg h5,
        if_neg h6, if_neg h7, if_neg h8, List.cons_append, List.nil_append]
      rw [parseStringBody.eq_def]
      simp [h1, h2, h8, ih]

theorem parseValue_quote (fuel : Nat) (h : 1 ≤ fuel) (v rest : List Char) :
    parseValue fuel ('"' :: (escapeList v ++ '"' :: rest)) =
      some (Json.str (String.mk v), rest) := by
  obtain ⟨g, rfl⟩ : ∃ g, fuel = g + 1 := ⟨fuel - 1, by omega⟩
  simp only [parseValue]
  rw [skipWs_cons_of _ _ (by decide)]
  simp [parseStringBody_escape]

theorem parseMember_pair (fuel : Nat) (h : 2 ≤ fuel) (k v rest : List Char) :
    parseMember fuel
        ('"' :: (escapeList k ++ '"' :: ':' :: '"' :: (escapeList v ++ '"' :: rest))) =
      some ((String.mk k, Json.str (String.mk v)), rest) := by
  obtain ⟨g, rfl⟩ : ∃ g, fuel = g + 1 := ⟨fuel - 1, by omega⟩
  simp only [parseMember]
  rw [skipWs_cons_of _ _ (by decide)]
  have hv := parseValue_quote g (by omega) v rest
  simp [parseStringBody_escape, skipWs_cons_of, jsonWs, hv]

theorem parseMembersRest_close (fuel : Nat) (h : 3 ≤ fuel) (acc : List (String × Json))
    (k v rest : List Char) :
    parseMembersRest fuel acc
        (',' :: '"' ::
          (escapeList k ++ '"' :: ':' :: '"' :: (escapeList v ++ '"' :: Char.ofNat 125 :: rest))) =
      some (acc ++ [(String.mk k, Json.str (String.mk v))], rest) := by
  obtain ⟨g2, rfl⟩ : ∃ g2, fuel = g2 + 2 := ⟨fuel - 2, by omega⟩
  have h1 : g2 + 2 = (g2 + 1) + 1 := rfl
  rw [h1]
  simp only [parseMembersRest]
  rw [skipWs_cons_of _ _ (by decide)]
  have hm := parseMember_pair (g2 + 1) (by omega) k v (Char.ofNat 125 :: rest)
  have hclose : ¬ (Char.ofNat 125 : Char) = ',' := by decide
  simp [hm, parseMembersRest, skipWs_cons_of, jsonWs, hclose]

theorem parseObjBody_pair (fuel : Nat) (h : 4 ≤ fuel) (k1 v1 k2 v2 rest : List Char) :
    parseObjBody fuel
        ('"' :: (escapeList k1 ++ '"' :: ':' :: '"' ::
          (escapeList v1 ++ '"' :: ',' :: '"' ::
            (escapeList k2 ++ '"' :: ':' :: '"' ::
              (escapeList v2 ++ '"' :: Char.ofNat 125 :: rest))))) =
      some ([(String.mk k1, Json.str (String.mk v1)),
             (String.mk k2, Json.str (String.mk v2))], rest) := by
  obtain ⟨g, rfl⟩ : ∃ g, fuel = g + 1 := ⟨fuel - 1, by omega⟩
  simp only [parseObjBody]
  rw [skipWs_cons_of _ _ (by decide)]
  have hne : ¬ (('"' : Char) = Char.ofNat 125) := by decide
  have hm := parseMember_pair g (by omega) k1 v1
    (',' :: '"' :: (escapeList k2 ++ '"' :: ':' :: '"' ::
      (escapeList v2 ++ '"' :: Char.ofNat 125 :: rest)))
  have hr := parseMembersRest_close g (by omega)
    [(String.mk k1, Json.str (String.mk v1))] k2 v2 rest
  simp [hne, hm, hr]

theorem parseValue_pairData (fuel : Nat) (h : 5 ≤ fuel) (m n : String) :
    parseValue fuel (stringifyPairData m n) =
      some (Json.obj [("msg", Json.str m), ("event_name", Json.str n)], []) := by
  obtain ⟨g, rfl⟩ : ∃ g, fuel = g + 1 := ⟨fuel - 1, by omega⟩
  have hform : stringifyPairData m n =
      Char.ofNat 123 :: '"' :: (escapeList "msg".data ++ '"' :: ':' :: '"' ::
        (escapeList m.data ++ '"' :: ',' :: '"' ::
          (escapeList "event_name".data ++ '"' :: ':' :: '"' ::
            (escapeList n.data ++ '"' :: Char.ofNat 125 :: [])))) := by
    simp [stringifyPairData, quoteList]
  rw [hform]
  simp only [parseValue]
  rw [skipWs_cons_of _ _ (by decide)]
  have hne1 : ¬ ((Char.ofNat 123 : Char) = '"') := by decide
  have hob := parseObjBody_pair g (by omega) "msg".data m.data "event_name".data n.data []
  have hmsg : String.mk "msg".data = "msg" := rfl
  have hev : String.mk "event_name".data = "event_name" := rfl
  have hmm : String.mk m.data = m := rfl
  have hnn : String.mk n.data = n := rfl
  simp [hne1, hob, hmsg, hev, hmm, hnn]

theorem jsonParse_create (m n : String) :
    jsonParse (EventMessage.create m n) =
      some (Json.obj [("msg", Json.str m), ("event_name", Json.str n)]) := by
  have hdata : (EventMessage.create m n).data = stringifyPairData m n := rfl
  rw [jsonParse, hdata]
  rw [parseValue_pairData _ (by omega)]
  simp [skipWs]

/-! ## Claim C8: round trip of create through fromJSON -/

/-- Counterexample to claim C8 as universally stated: for the event
name equal to the empty string (which contains no control characters),
the decoder applies the JavaScript falsiness default, so the decoded
event_name is the literal default and not the encoded name. -/
theorem create_empty_name_roundtrip_fails :
    EventMessage.fromJSON (EventMessage.create "x" "") =
      Except.ok { msg := Json.str "x", event_name := Json.str "default" } ∧
    Json.str "default" ≠ Json.str "" := by
  constructor
  · have hp := jsonParse_create "x" ""
    have hk1 : (("event_name" : String) == "msg") = false := by decide
    have hk2 : (("msg" : String) == "msg") = true := by decide
    have hk3 : (("event_name" : String) == "event_name") = true := by decide
    simp [EventMessage.fromJSON, hp, jsMember, jsGetField, jsOr, jsTruthy, hk1, hk2, hk3]
  · intro h
    injection h with h2
    exact absurd h2 (by decide)

/-- Claim C8 as amended: the structured round trip holds for every
message string and every nonempty event name: decoding the encoding
returns exactly the message and the event name; when the event name is
the empty string the decoded event name is the literal default
instead. -/
theorem create_fromJSON_roundtrip (m n : String) (hn : n ≠ "") :
    EventMessage.fromJSON (EventMessage.create m n) =
      Except.ok { msg := Json.str m, event_name := Json.str n } := by
  have hp := jsonParse_create m n
  have hk1 : (("event_name" : String) == "msg") = false := by decide
  have hk2 : (("msg" : String) == "msg") = true := by decide
  have hk3 : (("event_name" : String) == "event_name") = true := by decide
  by_cases hm : m = ""
  · subst hm
    simp [EventMessage.fromJSON, hp, jsMember, jsGetField, jsOr, jsTruthy, hk1, hk2, hk3, hn]
  · simp [EventMessage.fromJSON, hp, jsMember, jsGetField, jsOr, jsTruthy, hk1, hk2, hk3,
      hm, hn]

/-- Witness for the amended round trip at a concrete message and
event name. -/
theorem create_fromJSON_roundtrip_witness :
    EventMessage.fromJSON (EventMessage.create "hello" "evt") =
      Except.ok { msg := Json.str "hello", event_name := Json.str "evt" } :=
  create_fromJSON_roundtrip "hello" "evt" (by decide)

/-! ## Claim C10: non-null primitive JSON lines -/

/-- Claim C10: every line that parses as a JSON number, boolean or
string is consumed by fromJSON, which returns the empty message and
the default event name (property access on a non-null primitive is
undefined, and the falsiness defaults apply), so such lines never
reach the simple-format decoder; whereas the line consisting of the
word null parses to the null value, whose property access throws, so
fromJSON fails and the line falls through to the simple-format
decoder. -/
theorem primitive_json_lines_default (s : String) (v : Json)
    (hp : jsonParse s = some v) (hv : isPrimNonNull v = true) :
    (EventMessage.fromJSON s =
        Except.ok { msg := Json.str "", event_name := Json.str "default" } ∧
      parseLine s = { msg := Json.str "", event_name := Json.str "default" }) ∧
    (jsonParse "null" = some Json.null ∧
      EventMessage.fromJSON "null" = Except.error "Invalid JSON format" ∧
      parseLine "null" = EventMessage.fromSimpleFormat "null") := by
  refine ⟨?_, rfl, rfl, rfl⟩
  have hj : EventMessage.fromJSON s =
      Except.ok { msg := Json.str "", event_name := Json.str "default" } := by
    cases v with
    | null => simp [isPrimNonNull] at hv
    | bool b => simp [EventMessage.fromJSON, hp, jsMember, jsOr]
    | num q => simp [EventMessage.fromJSON, hp, jsMember, jsOr]
    | str t => simp [EventMessage.fromJSON, hp, jsMember, jsOr]
    | arr xs => simp [isPrimNonNull] at hv
    | obj fs => simp [isPrimNonNull] at hv
  exact ⟨hj, by simp [parseLine, hj]⟩

/-- Witness for claim C10 at the concrete lines true and 123: both
parse as non-null JSON primitives and land on the default record. -/
theorem primitive_json_lines_default_witness :
    ((EventMessage.fromJSON "true" =
        Except.ok { msg := Json.str "", event_name := Json.str "default" } ∧
      parseLine "true" = { msg := Json.str "", event_name := Json.str "default" }) ∧
    (jsonParse "null" = some Json.null ∧
      EventMessage.fromJSON "null" = Except.error "Invalid JSON format" ∧
      parseLine "null" = EventMessage.fromSimpleFormat "null")) ∧
    ((EventMessage.fromJSON "123" =
        Except.ok { msg := Json.str "", event_name := Json.str "default" } ∧
      parseLine "123" = { msg := Json.str "", event_name := Json.str "default" }) ∧
    (jsonParse "null" = some Json.null ∧
      EventMessage.fromJSON "null" = Except.error "Invalid JSON format" ∧
      parseLine "null" = EventMessage.fromSimpleFormat "null")) :=
  ⟨primitive_json_lines_default "true" (Json.bool true) rfl rfl,
   primitive_json_lines_default "123" (Json.num 123) rfl rfl⟩

end Driver

